import Mathlib

/-!
Verification of the MIME rendering resolution system of this repository
(`packages/rendermime-interfaces/src/index.ts` declares the interfaces; the
behavioural contracts of the engine, registry, bundle and lifecycle are given
by the design document). Definitions are a shallow embedding; theorems settle
the spec's claims against them.
-/

namespace RenderMime

/-- A JSON value, the `JSONValue` payload type from `@phosphor/coreutils` used
by `IBundle.get`/`set`/`delete` in `rendermime-interfaces/src/index.ts`. -/
inductive JSONValue where
  | null : JSONValue
  | bool (b : Bool) : JSONValue
  | num (n : Int) : JSONValue
  | str (s : String) : JSONValue
  | arr (elems : List JSONValue) : JSONValue
  | obj (fields : List (String × JSONValue)) : JSONValue

/-- Modelled from the spec: the mime-data bundle behind `IRenderMime.IBundle`
(src only declares the interface `get/set/has/keys/delete`; the backing store
is not under src). A mapping from string keys to JSON values, kept as an
association list whose order gives the deterministic key enumeration. -/
structure Bundle where
  entries : List (String × JSONValue)

namespace Bundle

/-- Get a value for a given key, `undefined` (`none`) when absent
(`IBundle.get`). -/
def get (b : Bundle) (key : String) : Option JSONValue :=
  (b.entries.find? (fun e => e.1 = key)).map (fun e => e.2)

/-- Check whether the bundle has a key (`IBundle.has`). -/
def has (b : Bundle) (key : String) : Bool :=
  b.entries.any (fun e => e.1 = key)

/-- List of the keys in the bundle (`IBundle.keys`). -/
def keys (b : Bundle) : List String :=
  b.entries.map (fun e => e.1)

/-- Walk the entries replacing the value at `key` in place, or append when the
key is new; returns the previous value alongside the new entries. -/
def setEntries : List (String × JSONValue) → String → JSONValue →
    Option JSONValue × List (String × JSONValue)
  | [], key, value => (none, [(key, value)])
  | e :: rest, key, value =>
      if e.1 = key then (some e.2, (key, value) :: rest)
      else
        let r := setEntries rest key value
        (r.1, e :: r.2)

/-- Set a key-value pair, returning the old value for the key (`none` if it
did not exist) together with the updated bundle (`IBundle.set`). -/
def set (b : Bundle) (key : String) (value : JSONValue) :
    Option JSONValue × Bundle :=
  let r := setEntries b.entries key value
  (r.1, ⟨r.2⟩)

/-- Walk the entries removing the first binding of `key`, returning the removed
value alongside the new entries. -/
def deleteEntries : List (String × JSONValue) → String →
    Option JSONValue × List (String × JSONValue)
  | [], _ => (none, [])
  | e :: rest, key =>
      if e.1 = key then (some e.2, rest)
      else
        let r := deleteEntries rest key
        (r.1, e :: r.2)

/-- Remove a key from the bundle, returning the value of the given key
(`none` if it does not exist) together with the updated bundle
(`IBundle.delete`). -/
def delete (b : Bundle) (key : String) : Option JSONValue × Bundle :=
  let r := deleteEntries b.entries key
  (r.1, ⟨r.2⟩)

end Bundle

/-- The mime model of `IRenderMime.IMimeModel`: a trust flag fixed at
construction (`readonly trusted`), a data bundle and a metadata bundle. -/
structure MimeModel where
  trusted : Bool
  data : Bundle
  metadata : Bundle

/-- Modelled from the spec: the mutations available on a model's bundles
(the observable-model implementation is not under src). No operation carries
a trust change; trust is fixed per output. -/
inductive ModelOp where
  | setData (key : String) (value : JSONValue) : ModelOp
  | deleteData (key : String) : ModelOp
  | setMetadata (key : String) (value : JSONValue) : ModelOp
  | deleteMetadata (key : String) : ModelOp

/-- Apply one bundle mutation to a model. -/
def applyOp (m : MimeModel) : ModelOp → MimeModel
  | ModelOp.setData k v => { m with data := (m.data.set k v).2 }
  | ModelOp.deleteData k => { m with data := (m.data.delete k).2 }
  | ModelOp.setMetadata k v => { m with metadata := (m.metadata.set k v).2 }
  | ModelOp.deleteMetadata k => { m with metadata := (m.metadata.delete k).2 }

/-- Apply a sequence of bundle mutations to a model. -/
def applyOps (m : MimeModel) (ops : List ModelOp) : MimeModel :=
  ops.foldl applyOp m

/-- A URL-resolution failure (`ResolutionError` of the spec). -/
inductive ResolutionError where
  | unresolvable (url : String) : ResolutionError

/-- The url resolver of `IRenderMime.IResolver`: translates relative
references (`resolveUrl`) and server paths (`getDownloadUrl`). -/
structure Resolver where
  resolveUrl : String → Except ResolutionError String
  getDownloadUrl : String → Except ResolutionError String

/-- The link handler of `IRenderMime.ILinkHandler`, kept abstract (its
`handleLink` acts on DOM nodes, outside the resolution core). -/
structure LinkHandler where
  id : Nat

/-- A live widget produced by a renderer (`IRenderMime.IReadyWidget`),
identified by the id its factory stamps on it. -/
structure Widget where
  id : Nat

/-- The options used to render mime data (`IRenderMime.IRenderOptions`):
resolved mimeType, the model, the sanitizer, optional resolver and optional
link handler. -/
structure RenderOptions where
  mimeType : String
  model : MimeModel
  sanitizer : String → String
  resolver : Option Resolver
  linkHandler : Option LinkHandler

/-- The renderer capability interface of `IRenderMime.IRenderer`: accepted
`mimeTypes`, `canRender`, `render` and `wouldSanitize`. -/
structure Renderer where
  mimeTypes : List String
  canRender : RenderOptions → Bool
  render : RenderOptions → Widget
  wouldSanitize : RenderOptions → Bool

/-- Modelled from the spec: one registry record (`RendererDescriptor`) — the
renderer together with its priority rank and its registration order (the
registry implementation is not under src). -/
structure RegistryEntry where
  rank : Nat
  order : Nat
  renderer : Renderer

/-- Modelled from the spec: the dynamic ordered collection of renderer
descriptors (`RendererRegistry`; not under src). -/
structure RendererRegistry where
  entries : List RegistryEntry

/-- Whether an accepted MIME-type list intersects the candidate list. -/
def intersects (accepted candidates : List String) : Bool :=
  candidates.any (fun c => accepted.contains c)

/-- Position in the caller-supplied candidate list of the first candidate the
accepted list contains (the secondary tie-break of `query`). -/
def acceptIndex (accepted candidates : List String) : Nat :=
  candidates.findIdx (fun c => accepted.contains c)

/-- Modelled from the spec: the ordering of `RendererRegistry.query` —
ascending priority rank, with the position of the accepted type in the
caller-supplied MIME-type list as the secondary tie-break. -/
def queryLE (ms : List String) (a b : RegistryEntry) : Prop :=
  a.rank < b.rank ∨
    (a.rank = b.rank ∧
      acceptIndex a.renderer.mimeTypes ms ≤ acceptIndex b.renderer.mimeTypes ms)

instance (ms : List String) : DecidableRel (queryLE ms) := fun a b =>
  decidable_of_iff
    (a.rank < b.rank ∨
      (a.rank = b.rank ∧
        acceptIndex a.renderer.mimeTypes ms ≤ acceptIndex b.renderer.mimeTypes ms))
    Iff.rfl

instance (ms : List String) : IsTotal RegistryEntry (queryLE ms) where
  total a b := by unfold queryLE; omega

instance (ms : List String) : IsTrans RegistryEntry (queryLE ms) where
  trans a b c h1 h2 := by unfold queryLE at h1 h2 ⊢; omega

/-- Modelled from the spec: `RendererRegistry.query` (not under src) — the
descriptors whose accepted MIME types intersect the candidates, ordered by
ascending priority rank with candidate-list position as tie-break (a stable
sort, so full ties keep registration order). -/
def query (reg : RendererRegistry) (ms : List String) : List RegistryEntry :=
  List.insertionSort (queryLE ms)
    (reg.entries.filter (fun e => intersects e.renderer.mimeTypes ms))

/-- Build the `RenderOptions` for one render call: `sanitizer` always
attached, `resolver`/`linkHandler` only when supplied by the caller. -/
def mkOptions (mt : String) (m : MimeModel) (san : String → String)
    (res : Option Resolver) (lh : Option LinkHandler) : RenderOptions :=
  ⟨mt, m, san, res, lh⟩

/-- Modelled from the spec: the trust gate of the engine (not under src) — a
trusted model passes; an untrusted model passes only a renderer whose
`wouldSanitize` is true for the resolved options. -/
def trustOK (e : RegistryEntry) (o : RenderOptions) : Bool :=
  o.model.trusted || e.renderer.wouldSanitize o

/-- The MIME type an entry resolves for a model: the first data-bundle key its
renderer accepts. -/
def resolveMime (e : RegistryEntry) (ks : List String) : Option String :=
  ks.find? (fun k => e.renderer.mimeTypes.contains k)

/-- Modelled from the spec: the selection walk of the engine (not under src) —
scan the query-ordered candidates; a candidate is selected when it passes the
trust gate and the extra check (`canRender` for `render`, trivial for
`preferredMimeType`); otherwise resolution proceeds to the next candidate. -/
def selectLoop (check : RegistryEntry → RenderOptions → Bool) (m : MimeModel)
    (san : String → String) (res : Option Resolver) (lh : Option LinkHandler) :
    List RegistryEntry → Option (RegistryEntry × String)
  | [] => none
  | e :: rest =>
      match resolveMime e m.data.keys with
      | none => selectLoop check m san res lh rest
      | some mt =>
          let o := mkOptions mt m san res lh
          if trustOK e o && check e o then some (e, mt)
          else selectLoop check m san res lh rest

/-- Modelled from the spec: the resolution behind `preferredMimeType` (not
under src) — the first query-ordered candidate passing the trust gate,
together with the MIME type it resolves. -/
def preferredSelection (reg : RendererRegistry) (m : MimeModel)
    (san : String → String) (res : Option Resolver) (lh : Option LinkHandler) :
    Option (RegistryEntry × String) :=
  selectLoop (fun _ _ => true) m san res lh (query reg m.data.keys)

/-- Modelled from the spec: `preferredMimeType` (not under src) — the MIME
type resolved by the preferred selection, `none` being the defined
"cannot render" outcome. -/
def preferredMimeType (reg : RendererRegistry) (m : MimeModel)
    (san : String → String) (res : Option Resolver) (lh : Option LinkHandler) :
    Option String :=
  (preferredSelection reg m san res lh).map (fun p => p.2)

/-- Modelled from the spec: the candidate selected by `render` (not under
src) — like the preferred selection but a candidate must also report
`canRender` true for the resolved options. -/
def renderSelection (reg : RendererRegistry) (m : MimeModel)
    (san : String → String) (res : Option Resolver) (lh : Option LinkHandler) :
    Option (RegistryEntry × String) :=
  selectLoop (fun e o => e.renderer.canRender o) m san res lh
    (query reg m.data.keys)

/-- The outcome of a render call: a widget produced by the selected entry, or
the defined unrenderable outcome `NoRendererFound`. -/
inductive RenderResult where
  | rendered (selected : RegistryEntry) (widget : Widget) : RenderResult
  | noRendererFound : RenderResult

/-- Modelled from the spec: `RenderMimeEngine.render` (not under src) —
resolve a candidate that passes the trust gate and `canRender`, produce its
widget; when the chain is exhausted return `noRendererFound`, never an
exception. -/
def render (reg : RendererRegistry) (m : MimeModel) (san : String → String)
    (res : Option Resolver) (lh : Option LinkHandler) : RenderResult :=
  match renderSelection reg m san res lh with
  | some (e, mt) =>
      RenderResult.rendered e (e.renderer.render (mkOptions mt m san res lh))
  | none => RenderResult.noRendererFound

/-- The entries of `reg` whose accepted MIME types overlap the new
renderer's. -/
def overlapping (reg : RendererRegistry) (r : Renderer) : List RegistryEntry :=
  reg.entries.filter (fun e => intersects e.renderer.mimeTypes r.mimeTypes)

/-- Modelled from the spec: the rank given to a newly registered renderer (the
registry implementation is not under src) — the supplied `priorityRank` when
present, otherwise one past the largest rank among entries with overlapping
MIME types (lowest priority among them). -/
def assignedRank (reg : RendererRegistry) (r : Renderer) :
    Option Nat → Nat
  | some n => n
  | none => (overlapping reg r).foldl (fun acc e => max acc (e.rank + 1)) 0

/-- Modelled from the spec: `RendererRegistry.register` (not under src) —
append a descriptor with the assigned rank and the next registration order. -/
def register (reg : RendererRegistry) (r : Renderer) (rank? : Option Nat) :
    RendererRegistry :=
  ⟨reg.entries ++ [⟨assignedRank reg r rank?, reg.entries.length, r⟩]⟩

/-- The registration order of the registry-preferred entry for one MIME type:
the head of the query for that single type. -/
def preferredEntryFor (reg : RendererRegistry) (mt : String) : Option Nat :=
  (query reg [mt]).head?.map (fun e => e.order)

/-- The lifecycle states of a `RendererInstance`
(spec: Constructing, Ready, Disposed, plus the Disposed-equivalent failure
state entered when construction fails). -/
inductive LifecycleState where
  | constructing : LifecycleState
  | ready : LifecycleState
  | disposed : LifecycleState
  | failed : LifecycleState
deriving DecidableEq

/-- The lifecycle events of a `RendererInstance`: its readiness future
resolving or rejecting, and disposal. -/
inductive LifecycleEvent where
  | resolve : LifecycleEvent
  | reject : LifecycleEvent
  | dispose : LifecycleEvent
deriving DecidableEq

/-- Modelled from the spec: the `RendererInstance` readiness lifecycle (the
widget implementations are not under src) — one step maps a state and an
event to the next state and whether the readiness future resolved on this
step. Resolution only fires from `constructing`; disposal from
`constructing` cancels pending setup; late or repeated events are ignored. -/
def lifecycleStep : LifecycleState → LifecycleEvent → LifecycleState × Bool
  | LifecycleState.constructing, LifecycleEvent.resolve =>
      (LifecycleState.ready, true)
  | LifecycleState.constructing, LifecycleEvent.reject =>
      (LifecycleState.failed, false)
  | LifecycleState.constructing, LifecycleEvent.dispose =>
      (LifecycleState.disposed, false)
  | LifecycleState.ready, LifecycleEvent.dispose =>
      (LifecycleState.disposed, false)
  | s, _ => (s, false)

/-- Run a trace of lifecycle events, collecting for each event whether the
readiness future resolved on it. -/
def runLifecycle : LifecycleState → List LifecycleEvent →
    LifecycleState × List Bool
  | s, [] => (s, [])
  | s, e :: rest =>
      let p := lifecycleStep s e
      let q := runLifecycle p.1 rest
      (q.1, p.2 :: q.2)

/-- How many times the readiness future resolves along a trace. -/
def resolutions (s : LifecycleState) (tr : List LifecycleEvent) : Nat :=
  (runLifecycle s tr).2.count true

/-- Modelled from the spec: the re-render debouncer (not under src) — walk the
timestamped update signals carrying the model state; while the next signal
falls inside the `renderTimeout` window of the current one it coalesces
(replacing the pending state); a gap beyond the window emits the pending
re-render and opens a new window. The pending state is emitted at the end. -/
def debounceGo {α : Type} (T : Nat) (t : Nat) (s : α) :
    List (Nat × α) → List α
  | [] => [s]
  | (t2, s2) :: rest =>
      if t2 ≤ t + T then debounceGo T t2 s2 rest
      else s :: debounceGo T t2 s2 rest

/-- Modelled from the spec: the re-renders emitted for a sequence of update
signals under debouncing with window `T` (not under src). -/
def debounce {α : Type} (T : Nat) : List (Nat × α) → List α
  | [] => []
  | (t, s) :: rest => debounceGo T t s rest

/-- The widget factory options of `IRenderMime.IWidgetFactoryOptions`:
`fileExtensions`, `name`, `defaultFor` (defaults to the empty array),
`readOnly`, `modelName`, `preferKernel`, `canStartKernel`. -/
structure WidgetFactoryOptions where
  fileExtensions : List String
  name : String
  defaultFor : List String
  readOnly : Bool
  modelName : Option String
  preferKernel : Bool
  canStartKernel : Bool

/-- Well-formedness of widget factory options per the source notes on
`defaultFor`: entries in `defaultFor` must also be included in the
`fileExtensions` attribute. -/
def WidgetFactoryOptions.wellFormed (o : WidgetFactoryOptions) : Prop :=
  ∀ x ∈ o.defaultFor, x ∈ o.fileExtensions

instance (o : WidgetFactoryOptions) : Decidable o.wellFormed :=
  List.decidableBAll _ o.defaultFor

/-- Modelled from the spec: the options a renderer contributes are passed
through unchanged to the document-registry collaborator (the forwarding code
is not under src; the spec states the core does not interpret them beyond
forwarding). -/
def forwardToDocRegistry (o : WidgetFactoryOptions) : WidgetFactoryOptions :=
  o

/-! Concrete renderers, registries and models used by the spec's scenarios. -/

/-- The identity sanitizer used to build concrete render options. -/
def idSanitizer : String → String := fun s => s

/-- Scenario renderer A: priority 0, handles `text/plain`, produces widget
10, sanitizing. -/
def rendA : Renderer :=
  ⟨["text/plain"], fun _ => true, fun _ => ⟨10⟩, fun _ => true⟩

/-- Scenario renderer B: priority 1, handles `text/plain` and `image/png`,
produces widget 20, sanitizing. -/
def rendB : Renderer :=
  ⟨["text/plain", "image/png"], fun _ => true, fun _ => ⟨20⟩, fun _ => true⟩

/-- Registry entry for scenario renderer A at rank 0. -/
def entryA : RegistryEntry := ⟨0, 0, rendA⟩

/-- Registry entry for scenario renderer B at rank 1. -/
def entryB : RegistryEntry := ⟨1, 1, rendB⟩

/-- The scenario registry holding renderers A and B. -/
def regAB : RendererRegistry := ⟨[entryA, entryB]⟩

/-- The scenario model with data `{text/plain: "hi", image/png: "<base64>"}`. -/
def modelAB : MimeModel :=
  ⟨true,
    ⟨[("text/plain", JSONValue.str "hi"),
      ("image/png", JSONValue.str "<base64>")]⟩,
    ⟨[]⟩⟩

/-- An untrusted variant of scenario renderer A that would not sanitize. -/
def rendAu : Renderer :=
  ⟨["text/plain"], fun _ => true, fun _ => ⟨11⟩, fun _ => false⟩

/-- A sanitizing renderer for the untrusted scenario, handling `text/plain`
and `image/png`. -/
def rendBu : Renderer :=
  ⟨["text/plain", "image/png"], fun _ => true, fun _ => ⟨21⟩, fun _ => true⟩

/-- The registry for the untrusted scenario: non-sanitizing A at rank 0,
sanitizing B at rank 1. -/
def regU : RendererRegistry := ⟨[⟨0, 0, rendAu⟩, ⟨1, 1, rendBu⟩]⟩

/-- The untrusted scenario model. -/
def modelU : MimeModel :=
  ⟨false, ⟨[("text/plain", JSONValue.str "hi")]⟩, ⟨[]⟩⟩

/-- A model whose only data key no registered renderer accepts. -/
def modelCustom : MimeModel :=
  ⟨true, ⟨[("application/x-custom", JSONValue.obj [])]⟩, ⟨[]⟩⟩

/-- A registry with ranks 1 and 2, leaving headroom to register at higher
priority. -/
def regHi : RendererRegistry := ⟨[⟨1, 0, rendA⟩, ⟨2, 1, rendB⟩]⟩

/-- A renderer to register on top of `regHi` for `text/plain`. -/
def rendC : Renderer :=
  ⟨["text/plain"], fun _ => true, fun _ => ⟨30⟩, fun _ => true⟩

/-- Concrete well-formed widget factory options. -/
def optsW : WidgetFactoryOptions :=
  ⟨[".pdf", ".txt"], "viewer", [".pdf"], true, none, false, false⟩

/-! Theorems settling the claims, with shared helper lemmas. -/

/-- Any entry returned by the selection walk passed the trust gate and the
extra check for the options it resolved. -/
theorem selectLoop_sound (check : RegistryEntry → RenderOptions → Bool)
    (m : MimeModel) (san : String → String) (res : Option Resolver)
    (lh : Option LinkHandler) (l : List RegistryEntry) (e : RegistryEntry)
    (mt : String) (h : selectLoop check m san res lh l = some (e, mt)) :
    trustOK e (mkOptions mt m san res lh) = true ∧
    check e (mkOptions mt m san res lh) = true := by
  induction l with
  | nil => simp [selectLoop] at h
  | cons a rest ih =>
      rw [selectLoop] at h
      cases hr : resolveMime a m.data.keys with
      | none => rw [hr] at h; exact ih h
      | some mt2 =>
          rw [hr] at h
          simp only at h
          split at h
          · rename_i hcond
            obtain ⟨he, hm⟩ := Prod.mk.injEq a mt2 e mt ▸ Option.some.injEq _ _ ▸ h
            subst he; subst hm
            exact And.imp_left (fun t => t) (Bool.and_eq_true _ _ |>.mp hcond)
          · exact ih h

/-- C1: for every untrusted model, neither the `preferredMimeType` resolution
nor `render` ever selects a renderer whose `wouldSanitize` is false for the
resolved options; such candidates are skipped. -/
theorem untrusted_selection_sanitizes (reg : RendererRegistry) (m : MimeModel)
    (san : String → String) (res : Option Resolver) (lh : Option LinkHandler)
    (h : m.trusted = false) :
    (∀ e mt, preferredSelection reg m san res lh = some (e, mt) →
      e.renderer.wouldSanitize (mkOptions mt m san res lh) = true) ∧
    (∀ e w, render reg m san res lh = RenderResult.rendered e w →
      ∃ mt, renderSelection reg m san res lh = some (e, mt) ∧
        e.renderer.wouldSanitize (mkOptions mt m san res lh) = true) := by
  have key : ∀ (check : RegistryEntry → RenderOptions → Bool) e mt,
      selectLoop check m san res lh (query reg m.data.keys) = some (e, mt) →
      e.renderer.wouldSanitize (mkOptions mt m san res lh) = true := by
    intro check e mt hsel
    have := (selectLoop_sound check m san res lh _ e mt hsel).1
    unfold trustOK at this
    simp only [mkOptions] at this ⊢
    rw [h] at this
    simpa using this
  constructor
  · intro e mt hsel
    exact key _ e mt hsel
  · intro e w hr
    unfold render at hr
    cases hsel : renderSelection reg m san res lh with
    | none => rw [hsel] at hr; exact absurd hr (by simp)
    | some p =>
        rw [hsel] at hr
        simp only at hr
        obtain ⟨he, -⟩ := RenderResult.rendered.injEq _ _ _ _ ▸ hr
        subst he
        exact ⟨p.2, by rw [← hsel], key _ p.1 p.2 hsel⟩

/-- Witness for C1 at the untrusted scenario registry and model. -/
theorem untrusted_selection_sanitizes_check :
    modelU.trusted = false ∧
    ((∀ e mt,
        preferredSelection regU modelU idSanitizer none none = some (e, mt) →
        e.renderer.wouldSanitize (mkOptions mt modelU idSanitizer none none)
          = true) ∧
      (∀ e w,
        render regU modelU idSanitizer none none = RenderResult.rendered e w →
        ∃ mt, renderSelection regU modelU idSanitizer none none = some (e, mt) ∧
          e.renderer.wouldSanitize (mkOptions mt modelU idSanitizer none none)
            = true)) :=
  ⟨rfl, untrusted_selection_sanitizes regU modelU idSanitizer none none rfl⟩

/-- C3: `query` returns exactly the descriptors whose accepted MIME types
intersect the candidates, ordered by ascending priority rank with the
candidate-list position of the accepted type as secondary tie-break; on the
scenario registry (A rank 0 for `text/plain`; B rank 1 for `text/plain` and
`image/png`) and the model with data keys `text/plain` and `image/png`,
`preferredMimeType` is `text/plain` and `render` produces A's instance. -/
theorem query_order_and_scenario (reg : RendererRegistry) (ms : List String) :
    (∀ e, e ∈ query reg ms ↔
      e ∈ reg.entries ∧ intersects e.renderer.mimeTypes ms = true) ∧
    List.Sorted (queryLE ms) (query reg ms) ∧
    preferredMimeType regAB modelAB idSanitizer none none
      = some "text/plain" ∧
    render regAB modelAB idSanitizer none none
      = RenderResult.rendered entryA (Widget.mk 10) := by
  refine ⟨fun e => ?_, ?_, rfl, rfl⟩
  · unfold query
    rw [List.mem_insertionSort, List.mem_filter]
  · exact List.sorted_insertionSort (queryLE ms) _

/-- The query over a model whose data keys intersect no registered renderer's
accepted types is empty, so selection fails. -/
theorem render_no_intersection (reg : RendererRegistry) (m : MimeModel)
    (san : String → String) (res : Option Resolver) (lh : Option LinkHandler)
    (h : ∀ e ∈ reg.entries,
      intersects e.renderer.mimeTypes m.data.keys = false) :
    render reg m san res lh = RenderResult.noRendererFound := by
  have hf : reg.entries.filter
      (fun e => intersects e.renderer.mimeTypes m.data.keys) = [] := by
    rw [List.filter_eq_nil_iff]
    intro a ha
    simp [h a ha]
  unfold render renderSelection query
  rw [hf]
  rfl

/-- C4: `render` always yields a defined outcome — either the selected entry
passed `canRender` for its resolved options and its widget is produced, or
the chain is exhausted and the result is the unrenderable outcome
`noRendererFound`; in particular when no registered renderer accepts any of
the model's MIME types the result is `noRendererFound`, never an exception. -/
theorem render_defined_outcome (reg : RendererRegistry) (m : MimeModel)
    (san : String → String) (res : Option Resolver) (lh : Option LinkHandler) :
    ((∀ e ∈ reg.entries,
        intersects e.renderer.mimeTypes m.data.keys = false) →
      render reg m san res lh = RenderResult.noRendererFound) ∧
    (∀ e w, render reg m san res lh = RenderResult.rendered e w →
      ∃ mt, renderSelection reg m san res lh = some (e, mt) ∧
        e.renderer.canRender (mkOptions mt m san res lh) = true ∧
        w = e.renderer.render (mkOptions mt m san res lh)) ∧
    (render reg m san res lh = RenderResult.noRendererFound ∨
      ∃ e w, render reg m san res lh = RenderResult.rendered e w) := by
  refine ⟨render_no_intersection reg m san res lh, ?_, ?_⟩
  · intro e w hr
    unfold render at hr
    cases hsel : renderSelection reg m san res lh with
    | none => rw [hsel] at hr; exact absurd hr (by simp)
    | some p =>
        rw [hsel] at hr
        simp only at hr
        obtain ⟨he, hw⟩ := RenderResult.rendered.injEq _ _ _ _ ▸ hr
        subst he
        refine ⟨p.2, by rw [← hsel], ?_, hw.symm⟩
        exact (selectLoop_sound _ m san res lh _ p.1 p.2 hsel).2
  · unfold render
    cases renderSelection reg m san res lh with
    | none => exact Or.inl rfl
    | some p => exact Or.inr ⟨p.1, _, rfl⟩

/-- Witness for C4: the scenario model whose only data key is
`application/x-custom` renders to the unrenderable outcome on the scenario
registry. -/
theorem render_defined_outcome_check :
    render regAB modelCustom idSanitizer none none
      = RenderResult.noRendererFound :=
  (render_defined_outcome regAB modelCustom idSanitizer none none).1
    (by decide)

/-- C2: resolution is deterministic — with the registry state and model
unchanged, repeated calls of `preferredMimeType` return the same MIME type and
repeated dispatches of `render` produce the same outcome. -/
theorem resolution_deterministic (reg : RendererRegistry) (m : MimeModel)
    (san : String → String) (res : Option Resolver) (lh : Option LinkHandler) :
    preferredMimeType reg m san res lh = preferredMimeType reg m san res lh ∧
    render reg m san res lh = render reg m san res lh :=
  ⟨rfl, rfl⟩

/-- Unfolding of `runLifecycle` over one event. -/
theorem runLifecycle_cons (s : LifecycleState) (e : LifecycleEvent)
    (tr : List LifecycleEvent) :
    runLifecycle s (e :: tr) =
      ((runLifecycle (lifecycleStep s e).1 tr).1,
        (lifecycleStep s e).2 :: (runLifecycle (lifecycleStep s e).1 tr).2) :=
  rfl

/-- Unfolding of `resolutions` over one event. -/
theorem resolutions_cons (s : LifecycleState) (e : LifecycleEvent)
    (tr : List LifecycleEvent) :
    resolutions s (e :: tr) =
      (if (lifecycleStep s e).2 then 1 else 0) +
        resolutions (lifecycleStep s e).1 tr := by
  unfold resolutions
  rw [runLifecycle_cons]
  cases hb : (lifecycleStep s e).2 <;>
    simp [List.count_cons, hb, Nat.add_comm]

/-- Once the instance has left `constructing`, one step keeps it outside
`constructing` and never resolves the readiness future. -/
theorem lifecycleStep_stuck (s : LifecycleState) (e : LifecycleEvent)
    (h : s ≠ LifecycleState.constructing) :
    (lifecycleStep s e).1 ≠ LifecycleState.constructing ∧
      (lifecycleStep s e).2 = false := by
  cases s <;> cases e <;> simp_all [lifecycleStep]

/-- Outside `constructing` the readiness future never resolves again. -/
theorem resolutions_of_ne (tr : List LifecycleEvent) :
    ∀ s, s ≠ LifecycleState.constructing → resolutions s tr = 0 := by
  induction tr with
  | nil => intro s _; rfl
  | cons e rest ih =>
      intro s hs
      rw [resolutions_cons]
      obtain ⟨h1, h2⟩ := lifecycleStep_stuck s e hs
      rw [h2, ih _ h1]
      rfl

/-- Splitting `resolutions` across an appended trace. -/
theorem resolutions_append (s : LifecycleState)
    (l1 l2 : List LifecycleEvent) :
    resolutions s (l1 ++ l2) =
      resolutions s l1 + resolutions (runLifecycle s l1).1 l2 := by
  induction l1 generalizing s with
  | nil => simp [resolutions, runLifecycle]
  | cons e rest ih =>
      rw [List.cons_append, resolutions_cons, ih, resolutions_cons]
      have h : (runLifecycle s (e :: rest)).1 =
          (runLifecycle (lifecycleStep s e).1 rest).1 := by
        rw [runLifecycle_cons]
      rw [h, Nat.add_assoc]

/-- A dispose step never resolves the readiness future and never lands in
`constructing`. -/
theorem lifecycleStep_dispose (s : LifecycleState) :
    (lifecycleStep s LifecycleEvent.dispose).2 = false ∧
      (lifecycleStep s LifecycleEvent.dispose).1
        ≠ LifecycleState.constructing := by
  cases s <;> simp [lifecycleStep]

/-- C5: the readiness future of a renderer instance resolves at most once
along any event trace from `constructing`; a construction failure rejects
into the `failed` (Disposed-equivalent) state without resolving, from which
the future never resolves; and once the instance is disposed before the
future resolved, the future never resolves afterward. -/
theorem lifecycle_claims :
    (∀ tr, resolutions LifecycleState.constructing tr ≤ 1) ∧
    lifecycleStep LifecycleState.constructing LifecycleEvent.reject
      = (LifecycleState.failed, false) ∧
    (∀ tr, resolutions LifecycleState.failed tr = 0) ∧
    (∀ pre post, resolutions LifecycleState.constructing pre = 0 →
      resolutions LifecycleState.constructing
        (pre ++ LifecycleEvent.dispose :: post) = 0) := by
  refine ⟨?_, rfl, fun tr => resolutions_of_ne tr _ (by simp), ?_⟩
  · intro tr
    cases tr with
    | nil => exact Nat.zero_le 1
    | cons e rest =>
        rw [resolutions_cons]
        cases e <;>
          simp [lifecycleStep, resolutions_of_ne rest]
  · intro pre post hpre
    rw [resolutions_append, hpre, resolutions_cons]
    obtain ⟨h2, h1⟩ := lifecycleStep_dispose (runLifecycle
      LifecycleState.constructing pre).1
    rw [h2, resolutions_of_ne post _ h1]
    rfl

/-- Witness for C5: disposing right away, a later resolve signal never
resolves the future. -/
theorem lifecycle_claims_check :
    resolutions LifecycleState.constructing [] = 0 ∧
    resolutions LifecycleState.constructing
      ([] ++ LifecycleEvent.dispose :: [LifecycleEvent.resolve]) = 0 :=
  ⟨rfl, lifecycle_claims.2.2.2 [] [LifecycleEvent.resolve] rfl⟩

/-- C6: for a nonempty burst of update signals whose timestamps are
nondecreasing and all fall within one `renderTimeout` window of the first
signal, debouncing emits exactly one re-render, carrying the model state of
the last signal. -/
theorem debounce_coalesces {α : Type} (T t0 : Nat) (s0 : α)
    (rest : List (Nat × α))
    (hchain : List.Chain (fun a b => a ≤ b) t0 (rest.map (fun p => p.1)))
    (hwin : ∀ p ∈ rest, p.1 ≤ t0 + T) :
    debounce T ((t0, s0) :: rest) = [(rest.getLastD (t0, s0)).2] := by
  induction rest generalizing t0 s0 with
  | nil => rfl
  | cons q rs ih =>
      obtain ⟨t1, s1⟩ := q
      rw [List.map_cons, List.chain_cons] at hchain
      have ht1 : t1 ≤ t0 + T := hwin (t1, s1) (by simp)
      have step : debounce T ((t0, s0) :: (t1, s1) :: rs)
          = debounce T ((t1, s1) :: rs) := by
        show (if t1 ≤ t0 + T then debounceGo T t1 s1 rs
            else s0 :: debounceGo T t1 s1 rs) = debounceGo T t1 s1 rs
        rw [if_pos ht1]
      rw [step, List.getLastD_cons]
      exact ih t1 s1 hchain.2
        (fun p hp => le_trans (hwin p (by simp [hp]))
          (by omega))

/-- Witness for C6: three updates inside one window of length 100 coalesce
into one re-render with the last state. -/
theorem debounce_coalesces_check :
    debounce 100 [(0, (1 : Nat)), (30, 2), (60, 3)] = [3] :=
  debounce_coalesces 100 0 1 [(30, 2), (60, 3)]
    (List.Chain.cons (by decide) (List.Chain.cons (by decide) List.Chain.nil))
    (by decide)

/-- C7: the trust flag of a mime model is fixed at construction — no sequence
of bundle mutations on the model's data or metadata ever changes it, so
untrusted data is never promoted to trusted. -/
theorem trusted_fixed (m : MimeModel) (ops : List ModelOp) :
    (applyOps m ops).trusted = m.trusted := by
  induction ops generalizing m with
  | nil => rfl
  | cons op rest ih =>
      have h1 : (applyOp m op).trusted = m.trusted := by
        cases op <;> rfl
      have h2 : applyOps m (op :: rest) = applyOps (applyOp m op) rest := rfl
      rw [h2, ih, h1]

/-- The previous value reported by the set walk is the current binding of the
key. -/
theorem setEntries_fst (l : List (String × JSONValue)) (key : String)
    (value : JSONValue) :
    (Bundle.setEntries l key value).1
      = (l.find? (fun e => e.1 = key)).map (fun e => e.2) := by
  induction l with
  | nil => rfl
  | cons e rest ih =>
      by_cases h : e.1 = key
      · simp [Bundle.setEntries, h, List.find?]
      · simp [Bundle.setEntries, h, List.find?, ih]

/-- The removed value reported by the delete walk is the current binding of
the key. -/
theorem deleteEntries_fst (l : List (String × JSONValue)) (key : String) :
    (Bundle.deleteEntries l key).1
      = (l.find? (fun e => e.1 = key)).map (fun e => e.2) := by
  induction l with
  | nil => rfl
  | cons e rest ih =>
      by_cases h : e.1 = key
      · simp [Bundle.deleteEntries, h, List.find?]
      · simp [Bundle.deleteEntries, h, List.find?, ih]

/-- C8: bundle operations signal absence as a value, never as an error —
`set` returns the previous value of the key (or `none`), `delete` returns the
removed value (or `none`), `get` returns `none` exactly when `has` is false,
and `keys` is deterministic across calls on an unchanged bundle. -/
theorem bundle_contract (b : Bundle) (key : String) (value : JSONValue) :
    (b.set key value).1 = b.get key ∧
    (b.delete key).1 = b.get key ∧
    (b.get key = none ↔ b.has key = false) ∧
    b.keys = b.keys := by
  refine ⟨setEntries_fst b.entries key value,
    deleteEntries_fst b.entries key, ?_, rfl⟩
  unfold Bundle.get Bundle.has
  rw [Option.map_eq_none', List.find?_eq_none, List.any_eq_false]

/-- The accumulator bounds the running maximum of the rank fold. -/
theorem foldl_max_base (l : List RegistryEntry) (a : Nat) :
    a ≤ l.foldl (fun acc x => max acc (x.rank + 1)) a := by
  induction l generalizing a with
  | nil => exact Nat.le_refl a
  | cons x xs ih =>
      rw [List.foldl_cons]
      exact Nat.le_trans (Nat.le_max_left a (x.rank + 1)) (ih _)

/-- Every listed entry's rank is strictly below the running maximum of the
rank fold. -/
theorem foldl_max_le (l : List RegistryEntry) (a : Nat) (e : RegistryEntry)
    (he : e ∈ l) :
    e.rank + 1 ≤ l.foldl (fun acc x => max acc (x.rank + 1)) a := by
  induction l generalizing a with
  | nil => cases he
  | cons x xs ih =>
      rw [List.foldl_cons]
      rcases List.mem_cons.mp he with h | h
      · rw [h]
        exact Nat.le_trans (Nat.le_max_right a (x.rank + 1))
          (foldl_max_base xs _)
      · exact ih _ h

/-- Registering with a rank strictly below every existing entry accepting a
MIME type makes the new entry the registry-preferred one for that type. -/
theorem register_overrides (reg : RendererRegistry) (r : Renderer) (n : Nat)
    (mt : String) (hacc : mt ∈ r.mimeTypes)
    (hlt : ∀ e ∈ reg.entries,
      intersects e.renderer.mimeTypes [mt] = true → n < e.rank) :
    preferredEntryFor (register reg r (some n)) mt
      = some reg.entries.length := by
  set newE : RegistryEntry := ⟨n, reg.entries.length, r⟩ with hnewE
  have hpne : intersects newE.renderer.mimeTypes [mt] = true := by
    simp [intersects, hnewE]
    exact hacc
  have hreg : (register reg r (some n)).entries = reg.entries ++ [newE] := rfl
  have hfilter : (reg.entries ++ [newE]).filter
      (fun e => intersects e.renderer.mimeTypes [mt])
      = reg.entries.filter
          (fun e => intersects e.renderer.mimeTypes [mt]) ++ [newE] := by
    rw [List.filter_append]
    simp [hpne]
  unfold preferredEntryFor query
  rw [hreg, hfilter]
  set l := reg.entries.filter
    (fun e => intersects e.renderer.mimeTypes [mt]) ++ [newE] with hl
  have hmem : newE ∈ List.insertionSort (queryLE [mt]) l := by
    rw [List.mem_insertionSort, hl]
    exact List.mem_append_right _ (List.mem_singleton.mpr rfl)
  have hsorted := List.sorted_insertionSort (queryLE [mt]) l
  cases hS : List.insertionSort (queryLE [mt]) l with
  | nil => rw [hS] at hmem; cases hmem
  | cons x tail =>
      rw [hS] at hmem hsorted
      rw [List.sorted_cons] at hsorted
      have hx : x = newE := by
        rcases List.mem_cons.mp hmem with h | h
        · exact h.symm
        · have hxl : x ∈ l := by
            have hxS : x ∈ List.insertionSort (queryLE [mt]) l := by
              rw [hS]; exact List.mem_cons_self x tail
            rwa [List.mem_insertionSort] at hxS
          rw [hl] at hxl
          rcases List.mem_append.mp hxl with hxo | hxn
          · obtain ⟨hxe, hxp⟩ := List.mem_filter.mp hxo
            have hn := hlt x hxe (by simpa using hxp)
            have hle := hsorted.1 newE h
            exfalso
            have hrank : newE.rank = n := rfl
            unfold queryLE at hle
            omega
          · simpa using hxn
      rw [hx]
      rfl

/-- Registering a renderer leaves the registry-preferred entry of every MIME
type the renderer does not accept unchanged. -/
theorem register_frame (reg : RendererRegistry) (r : Renderer)
    (rank? : Option Nat) (mt : String) (h : mt ∉ r.mimeTypes) :
    preferredEntryFor (register reg r rank?) mt
      = preferredEntryFor reg mt := by
  have hp : intersects r.mimeTypes [mt] = false := by
    simp [intersects]
    exact h
  unfold preferredEntryFor query register
  rw [List.filter_append]
  simp [hp]

/-- C9: registering a renderer with a rank strictly below every existing
entry for a MIME type it accepts makes it the preferred renderer for that
type; the preferred renderer of every MIME type the new renderer does not
accept is unchanged; and when `priorityRank` is omitted the new renderer is
appended with lowest priority (a rank strictly above every existing entry
with overlapping MIME types). -/
theorem register_priority_claims (reg : RendererRegistry) (r : Renderer) :
    (∀ n mt, mt ∈ r.mimeTypes →
      (∀ e ∈ reg.entries, intersects e.renderer.mimeTypes [mt] = true →
        n < e.rank) →
      preferredEntryFor (register reg r (some n)) mt
        = some reg.entries.length) ∧
    (∀ rank? mt, mt ∉ r.mimeTypes →
      preferredEntryFor (register reg r rank?) mt
        = preferredEntryFor reg mt) ∧
    (∀ e ∈ reg.entries, intersects e.renderer.mimeTypes r.mimeTypes = true →
      e.rank < assignedRank reg r none) := by
  refine ⟨fun n mt hacc hlt => register_overrides reg r n mt hacc hlt,
    fun rank? mt h => register_frame reg r rank? mt h,
    fun e he hov => ?_⟩
  have hmem : e ∈ overlapping reg r := List.mem_filter.mpr ⟨he, by simpa using hov⟩
  have hb := foldl_max_le (overlapping reg r) 0 e hmem
  show e.rank < (overlapping reg r).foldl (fun acc x => max acc (x.rank + 1)) 0
  omega

/-- Witness for C9: on the registry with ranks 1 and 2, registering C for
`text/plain` at rank 0 makes C preferred for `text/plain`, leaves
`image/png` unchanged, and an omitted rank lands strictly below every
overlapping entry in priority. -/
theorem register_priority_claims_check :
    ("text/plain" ∈ rendC.mimeTypes) ∧
    preferredEntryFor (register regHi rendC (some 0)) "text/plain"
      = some 2 ∧
    preferredEntryFor (register regHi rendC (some 0)) "image/png"
      = preferredEntryFor regHi "image/png" ∧
    (∀ e ∈ regHi.entries,
      intersects e.renderer.mimeTypes rendC.mimeTypes = true →
      e.rank < assignedRank regHi rendC none) :=
  ⟨by decide,
   (register_priority_claims regHi rendC).1 0 "text/plain" (by decide)
     (by decide),
   (register_priority_claims regHi rendC).2.1 (some 0) "image/png"
     (by decide),
   (register_priority_claims regHi rendC).2.2⟩

/-- C10: for well-formed widget factory options every file extension in
`defaultFor` is also a member of `fileExtensions`, and the invariant is
preserved when the options are forwarded unchanged to the document
registry. -/
theorem widgetFactory_defaultFor_subset (o : WidgetFactoryOptions)
    (h : o.wellFormed) :
    (∀ x ∈ o.defaultFor, x ∈ o.fileExtensions) ∧
    (forwardToDocRegistry o).wellFormed ∧
    forwardToDocRegistry o = o :=
  ⟨h, h, rfl⟩

/-- Witness for C10 at concrete well-formed options. -/
theorem widgetFactory_defaultFor_subset_check :
    optsW.wellFormed ∧
    ((∀ x ∈ optsW.defaultFor, x ∈ optsW.fileExtensions) ∧
      (forwardToDocRegistry optsW).wellFormed ∧
      forwardToDocRegistry optsW = optsW) :=
  ⟨by decide, widgetFactory_defaultFor_subset optsW (by decide)⟩

end RenderMime
